import Mathlib

/-!
Verification development for the coder workspace-agent core.

This file shallowly embeds the parts of the Go sources relevant to the
frozen claims: the agent status derivation of
`coderd/workspaceagents.go` (`convertWorkspaceAgent`), the agent-facing
listener heartbeat and build-fencing loop (`workspaceAgentListen`), the
per-protocol connection statistics (`agent/stats.go`), the DAU gap-fill
and metrics cache (`coderd/metricscache`, `coderd/metrics.go`), the dial
stream setup (`agent/conn.go`, `WebRTCConn.DialContext`) and the
websocket close-reason formatter (`httpapi.WebsocketCloseSprintf`).

Timestamps are modelled as `Option Nat` (absent `sql.NullTime` is
`none`); Go reads the `.Time` field of a null `sql.NullTime` as the zero
time, which we model by mapping `none` to `0` (`timeOf`). Durations are
natural numbers of time units; `Nat` subtraction truncates at zero,
which agrees with the Go comparisons `d > timeout` for non-negative
timeouts, since a negative Go duration is never greater than a
non-negative timeout.
-/

namespace Coder

/-! ## Agent status derivation (`convertWorkspaceAgent`, coderd/workspaceagents.go) -/

/-- The status values of `codersdk.WorkspaceAgentStatus` plus `unset`,
which models the Go zero value (the empty string) that `Status` keeps
when no case of the `switch` in `convertWorkspaceAgent` matches. -/
inductive WorkspaceAgentStatus where
  | unset
  | connecting
  | connected
  | disconnected
deriving DecidableEq, Repr

/-- Reading the `.Time` field of an optional timestamp: a null
`sql.NullTime` holds the zero time. -/
def timeOf : Option Nat → Nat
  | none => 0
  | some t => t

/-- The status `switch` of `convertWorkspaceAgent`: first match wins.
Note that the second and third cases read the `.Time` fields without
checking `.Valid`, exactly as the Go code does, and that a fall-through
(no case matches) leaves the status at its zero value `unset`. -/
def deriveAgentStatus (first last disc : Option Nat) (now timeout : Nat) :
    WorkspaceAgentStatus :=
  if first.isNone then .connecting
  else if timeOf last < timeOf disc then .disconnected
  else if timeout < now - timeOf last then .disconnected
  else if last.isSome then .connected
  else .unset

/-! ## Heartbeat timestamp updates (`workspaceAgentListen`, coderd/workspaceagents.go) -/

/-- The three connection timestamps of a workspace agent row. -/
structure AgentTimes where
  firstConnectedAt : Option Nat
  lastConnectedAt : Option Nat
  disconnectedAt : Option Nat
deriving DecidableEq, Repr

/-- The timestamp triple that `workspaceAgentListen` persists via
`updateConnectionTimes` when a tunnel is accepted: `firstConnectedAt`
is set to `now` only when previously absent, `lastConnectedAt` is
always set to `now`, and `disconnectedAt` is taken unchanged from the
stored agent row (`disconnectedAt := workspaceAgent.DisconnectedAt`). -/
def acceptConnectionUpdate (a : AgentTimes) (now : Nat) : AgentTimes :=
  { firstConnectedAt :=
      if a.firstConnectedAt.isSome then a.firstConnectedAt else some now
    lastConnectedAt := some now
    disconnectedAt := a.disconnectedAt }

/-- The timestamp triple persisted by the deferred teardown of
`workspaceAgentListen`: only `disconnectedAt` is overwritten with the
current time. -/
def teardownUpdate (a : AgentTimes) (now : Nat) : AgentTimes :=
  { a with disconnectedAt := some now }

/-! ## Build fencing in the agent listener loop (`workspaceAgentListen`) -/

/-- The closure `ensureLatestBuild` of `workspaceAgentListen`: fetch the
latest build of the owning workspace (`latest` is the fetch result) and
fail when it differs from the build the agent resource was created
under. A fetch error is passed through. -/
def ensureLatestBuild (buildID : Nat) (latest : Except String Nat) : Except String Unit :=
  match latest with
  | .error e => .error e
  | .ok latestID => if buildID ≠ latestID then .error "build is outdated" else .ok ()

/-- What the listener loop observes on one heartbeat tick: whether the
yamux session close channel fired first, whether
`updateConnectionTimes` succeeded, and the result of fetching the
latest build of the workspace. -/
structure TickEnv where
  sessionClosed : Bool
  updateOk : Bool
  latestBuild : Except String Nat
deriving Repr

/-- How the `for`/`select` loop of `workspaceAgentListen` ends.
`goingAway` is a close with `websocket.StatusGoingAway` and an empty
reason, `abnormalClose` a close with `websocket.StatusAbnormalClosure`,
`sessionClosed` the return taken when the session close channel fires,
and `pending` means the supplied trace ran out with the loop still
running. -/
inductive ListenOutcome where
  | sessionClosed
  | abnormalClose
  | goingAway
  | pending
deriving DecidableEq, Repr

/-- The ticker loop of `workspaceAgentListen`, one `TickEnv` per
iteration of the `select`: on a tick it refreshes the connection times
(an update error closes abnormally) and then re-checks
`ensureLatestBuild`, closing with the going-away status on any fencing
failure; otherwise it keeps looping. -/
def runTicks (buildID : Nat) : List TickEnv → ListenOutcome
  | [] => .pending
  | e :: rest =>
    if e.sessionClosed then .sessionClosed
    else if e.updateOk = false then .abnormalClose
    else
      match ensureLatestBuild buildID e.latestBuild with
      | .error _ => .goingAway
      | .ok _ => runTicks buildID rest

/-! ## Per-protocol connection statistics (`agent/stats.go`) -/

/-- `agent.ProtocolStats`: active connection count and cumulative
received/transmitted byte counters, all updated atomically. -/
structure ProtocolStats where
  numConns : Int
  rxBytes : Int
  txBytes : Int
deriving DecidableEq, Repr

/-- `agent.Stats.ProtocolStats`, a Go map from protocol name to
counters, modelled as a function to `Option`. -/
def Stats := String → Option ProtocolStats

/-- A freshly created `Stats` value has no protocol entries. -/
def emptyStats : Stats := fun _ => none

/-- `Stats.goConn`: look up the protocol entry, creating a zeroed one
when missing, then atomically increment its `NumConns`. -/
def goConn (s : Stats) (p : String) : Stats :=
  fun q =>
    if q = p then
      let ps := (s p).getD ⟨0, 0, 0⟩
      some { ps with numConns := ps.numConns + 1 }
    else s q

/-- `ConnStats.Read`: add the number of bytes read to `RxBytes`. -/
def connStatsRead (ps : ProtocolStats) (n : Int) : ProtocolStats :=
  { ps with rxBytes := ps.rxBytes + n }

/-- `ConnStats.Write`: add the number of bytes written to `TxBytes`. -/
def connStatsWrite (ps : ProtocolStats) (n : Int) : ProtocolStats :=
  { ps with txBytes := ps.txBytes + n }

/-- Closing a tracked stream. `ConnStats` declares no `Close` method:
the promoted `net.Conn.Close` of the wrapped connection runs, and no
code in `agent/stats.go` (or anywhere else in the repository) touches
any counter when a stream closes, so the statistics are unchanged. -/
def closeConn (s : Stats) : Stats := s

/-- `Stats.Reset`: atomically zero every counter of every existing
protocol entry (keys remain present). -/
def resetStats (s : Stats) : Stats :=
  fun q => (s q).map fun _ => ⟨0, 0, 0⟩

/-- The `NumConns` counter read for protocol `p` (0 when the protocol
was never seen). -/
def numConnsOf (s : Stats) (p : String) : Int :=
  ((s p).getD ⟨0, 0, 0⟩).numConns

/-! ## DAU gap-fill (`fillEmptyDAUDays` in coderd/metricscache, identical
to `FillEmptyDAUDays` in coderd/metrics.go) -/

/-- `database.GetDAUsFromAgentStatsRow`: a calendar date (a `time.Time`,
modelled as nanoseconds since an arbitrary origin, as `Int` like Go
durations) together with the distinct-user count for that day. -/
structure GetDAUsFromAgentStatsRow where
  date : Int
  daus : Int
deriving DecidableEq, Repr

/-- The constant `day = time.Hour * 24` of the gap-fill loop, in
nanoseconds (a Go `time.Duration` is an integer nanosecond count). -/
def day : Int := 86400000000000

/-- The inner `for diff > day` loop of `fillEmptyDAUDays`: starting
from the copy `last` of the earlier row, repeatedly advance its date by
one day, force its count to zero and emit it, consuming `day` from
`diff`, until at most one day is left. (The `if diff <= day break`
inside the Go loop is unreachable, since the loop condition has just
established `diff > day`.) -/
def fillGap (last : GetDAUsFromAgentStatsRow) (diff : Int) :
    List GetDAUsFromAgentStatsRow :=
  if _hgt : day < diff then
    let next : GetDAUsFromAgentStatsRow := { date := last.date + day, daus := 0 }
    next :: fillGap next (diff - day)
  else []
termination_by diff.toNat
decreasing_by
  simp only [day] at _hgt ⊢
  omega

/-- The body of the `for i, row := range rows` loop of
`fillEmptyDAUDays` for `i ≥ 1`: between the previous row and each
subsequent row, emit the synthesized zero rows and then the row
itself. -/
def fillPairs : GetDAUsFromAgentStatsRow → List GetDAUsFromAgentStatsRow →
    List GetDAUsFromAgentStatsRow
  | _, [] => []
  | prev, row :: rest => fillGap prev (row.date - prev.date) ++ row :: fillPairs row rest

/-- `fillEmptyDAUDays`: the first row is emitted as-is (`i == 0`), and
every later row is preceded by the synthesized zero-count rows for the
missing days strictly between it and its predecessor. -/
def fillEmptyDAUDays : List GetDAUsFromAgentStatsRow → List GetDAUsFromAgentStatsRow
  | [] => []
  | row :: rest => row :: fillPairs row rest

/-- Midnight UTC of January `d`, 2022, in Unix nanoseconds (the dates
of the gap-fill example; `1640995200` is the Unix second count of
2022-01-01 00:00:00 UTC). -/
def jan2022 (d : Nat) : Int := 1640995200000000000 + day * ((d : Int) - 1)

/-- Two adjacent rows are at most one day apart. -/
def dayGapLE (a b : GetDAUsFromAgentStatsRow) : Prop := b.date - a.date ≤ day

instance : DecidableRel dayGapLE := fun a b =>
  inferInstanceAs (Decidable (b.date - a.date ≤ day))

/-! ## Metrics cache refresh (`Cache.refresh`, `Cache.Start`,
`Cache.GetDAUs` in coderd/metricscache) -/

/-- `codersdk.DAUEntry`: one published chart entry. -/
structure DAUEntry where
  date : Int
  daus : Int
deriving DecidableEq, Repr

/-- The conversion loop of `Cache.refresh`/`daus`: each gap-filled row
becomes a `codersdk.DAUEntry`. -/
def convertDAURows (rows : List GetDAUsFromAgentStatsRow) : List DAUEntry :=
  rows.map fun r => ⟨r.date, r.daus⟩

/-- The row-store results one refresh cycle observes:
`DeleteOldAgentStats` and `GetDAUsFromAgentStats`. -/
structure RefreshEnv where
  deleteResult : Except String Unit
  dausResult : Except String (List GetDAUsFromAgentStatsRow)

/-- `Cache.refresh`: delete old stat rows (a failure aborts with a
wrapped error), query the DAU rows (a failure aborts), and only then
gap-fill, convert and atomically publish the new snapshot into the
single-slot pointer (`st` is the pointer contents, `none` while no
refresh has succeeded). Returns the error result together with the
pointer contents after the cycle. -/
def refresh (env : RefreshEnv) (st : Option (List DAUEntry)) :
    Except String Unit × Option (List DAUEntry) :=
  match env.deleteResult with
  | .error e => (.error ("delete old stats: " ++ e), st)
  | .ok _ =>
    match env.dausResult with
    | .error e => (.error e, st)
    | .ok daus => (.ok (), some (convertDAURows (fillEmptyDAUDays daus)))

/-- The inner retry loop of `Cache.Start` (`for r := retry.New(...);
r.Wait(ctx);`): run `refresh` once per attempt, continue on error, stop
on the first success. One `RefreshEnv` per attempt; an exhausted list
models the context being cancelled while waiting. Returns whether a
refresh succeeded, together with the final pointer contents. (The
backoff delays between attempts live in the external `retry` package
and are not modelled.) -/
def retryRefresh : List RefreshEnv → Option (List DAUEntry) →
    Bool × Option (List DAUEntry)
  | [], st => (false, st)
  | env :: rest, st =>
    match refresh env st with
    | (Except.error _, st2) => retryRefresh rest st2
    | (Except.ok _, st2) => (true, st2)

/-- `Cache.GetDAUs`: load the snapshot pointer; while it is still nil
return the zero `codersdk.GetDAUsResponse` (no entries), otherwise the
pointed-to response. -/
def getDAUs (st : Option (List DAUEntry)) : List DAUEntry :=
  match st with
  | none => []
  | some r => r

/-- A refresh environment in which some row-store call fails. -/
def refreshFails (env : RefreshEnv) : Prop :=
  (∃ e, env.deleteResult = Except.error e) ∨ (∃ e, env.dausResult = Except.error e)

/-! ## Dial streams (`WebRTCConn.DialContext`, agent/conn.go) -/

/-- The structured first message of a dial stream (`dialResponse`): an
error field, empty on success. -/
structure DialResponse where
  error : String
deriving DecidableEq, Repr

/-- What a `DialContext` call yields to its caller: whether a usable
`net.Conn` is returned, the error returned (if any), and whether
`DialContext` itself closed the channel. -/
structure DialCtxResult where
  connReturned : Bool
  err : Option String
  channelClosed : Bool
deriving DecidableEq, Repr

/-- `WebRTCConn.DialContext` after the address/URL encoding: create the
data channel (`createResult`), then decode exactly one structured JSON
response from it before any raw byte passthrough (`firstMessage` is the
decode result). A decode failure returns an error without a connection;
a non-empty error field makes `DialContext` close the channel and
return an error; an empty error field returns the stream for raw
passthrough. -/
def dialContext (createResult : Except String Unit)
    (firstMessage : Except String DialResponse) : DialCtxResult :=
  match createResult with
  | .error e => ⟨false, some ("create datachannel: " ++ e), false⟩
  | .ok _ =>
    match firstMessage with
    | .error e => ⟨false, some ("decode agent dial response: " ++ e), false⟩
    | .ok res =>
      if res.error ≠ "" then ⟨false, some ("remote dial error: " ++ res.error), true⟩
      else ⟨true, none, false⟩

/-! ## Websocket close reasons (`httpapi.WebsocketCloseSprintf`) -/

/-- `websocketCloseMaxLen`: nhooyr/websocket only allows close reasons
of up to 123 bytes. -/
def websocketCloseMaxLen : Nat := 123

/-- The Go conversion `string(b)` of a single byte `b`: the UTF-8
encoding of the code point with value `b` — one byte below 128,
otherwise the two-byte encoding of U+0080..U+00FF. The subsequent
`strings.ToValidUTF8(..., "")` is the identity on it, since the
encoding of a real code point is already valid UTF-8. -/
def goStringOfByte (b : Nat) : List Nat :=
  if b < 128 then [b] else [192 + b / 64, 128 + b % 64]

/-- `WebsocketCloseSprintf` applied to the already-formatted message
(`fmt.Sprintf` is outside the embedding; the claim quantifies over the
formatted result). The message is a byte string. When it is longer
than 123 bytes the code evaluates
`strings.ToValidUTF8(string(msg[123]), "")` — the single byte at index
123, not the `msg[:123]` prefix its comment describes. -/
def websocketCloseSprintf (msg : List Nat) : List Nat :=
  if websocketCloseMaxLen < msg.length then goStringOfByte (msg.getD 123 0)
  else msg

end Coder

namespace Coder

/-! ## Theorems for claims C1 and C3 -/

/-- Claim C1, counterexample: the derivation is not total in the claimed
sense. With `first_connected_at` present, `last_connected_at` and
`disconnected_at` absent, and the inactivity bound not exceeded
(`now - 0 = 100 ≤ 200 = timeout`), no case of the switch matches and the
status stays at its zero value, which is none of
connecting/connected/disconnected. -/
theorem deriveAgentStatus_not_total :
    deriveAgentStatus (some 100) none none 100 200 ≠ WorkspaceAgentStatus.connecting ∧
    deriveAgentStatus (some 100) none none 100 200 ≠ WorkspaceAgentStatus.connected ∧
    deriveAgentStatus (some 100) none none 100 200 ≠ WorkspaceAgentStatus.disconnected := by
  decide

/-- Claim C1, amended: whenever `first_connected_at` is absent or
`last_connected_at` is present, the derivation assigns exactly one of
connecting/connected/disconnected, evaluating the four rules in order
with the first match winning: connecting iff `first_connected_at` is
absent; else disconnected iff `disconnected_at` is present and strictly
after `last_connected_at`; else disconnected iff `now` minus
`last_connected_at` exceeds the inactivity timeout; else connected. -/
theorem deriveAgentStatus_rules (first last disc : Option Nat) (now timeout : Nat)
    (h : first.isNone ∨ last.isSome) :
    (deriveAgentStatus first last disc now timeout = .connecting ↔ first.isNone) ∧
    (deriveAgentStatus first last disc now timeout = .disconnected ↔
      first.isSome ∧ ((disc.isSome ∧ timeOf last < timeOf disc) ∨
        (¬ timeOf last < timeOf disc ∧ timeout < now - timeOf last))) ∧
    (deriveAgentStatus first last disc now timeout = .connected ↔
      first.isSome ∧ ¬ timeOf last < timeOf disc ∧ ¬ (timeout < now - timeOf last)) ∧
    deriveAgentStatus first last disc now timeout ≠ .unset := by
  rcases first with _ | ft
  · simp [deriveAgentStatus]
  · rcases h with h | h
    · simp at h
    · rcases last with _ | lt
      · simp at h
      · rcases disc with _ | dt <;>
          simp only [deriveAgentStatus, timeOf, Option.isNone_some, Option.isSome_some,
            Bool.false_eq_true, if_false, Option.isSome_none, true_and] <;>
          split_ifs <;> simp_all

/-- Claim C1, witness for the amended theorem at a concrete input:
agent first connected at 10, last connected at 50, never disconnected,
read at time 60 with timeout 100: connected. -/
theorem deriveAgentStatus_rules_witness :
    ((some 10 : Option Nat).isNone ∨ (some 50 : Option Nat).isSome) ∧
    ((deriveAgentStatus (some 10) (some 50) none 60 100 = .connecting ↔
        (some 10 : Option Nat).isNone) ∧
      (deriveAgentStatus (some 10) (some 50) none 60 100 = .disconnected ↔
        (some 10 : Option Nat).isSome ∧
          (((none : Option Nat).isSome ∧ timeOf (some 50) < timeOf (none : Option Nat)) ∨
            (¬ timeOf (some 50) < timeOf (none : Option Nat) ∧ 100 < 60 - timeOf (some 50)))) ∧
      (deriveAgentStatus (some 10) (some 50) none 60 100 = .connected ↔
        (some 10 : Option Nat).isSome ∧ ¬ timeOf (some 50) < timeOf (none : Option Nat) ∧
          ¬ (100 < 60 - timeOf (some 50))) ∧
      deriveAgentStatus (some 10) (some 50) none 60 100 ≠ .unset) :=
  ⟨by decide, deriveAgentStatus_rules (some 10) (some 50) none 60 100 (by decide)⟩

/-- Claim C3, counterexample: on tunnel accept the listener does not
clear `disconnected_at`. Starting from an agent row with
`disconnected_at = 5`, the triple persisted on accept at time 10 still
carries `disconnected_at = 5`. -/
theorem acceptConnectionUpdate_keeps_disconnectedAt :
    acceptConnectionUpdate ⟨some 1, some 2, some 5⟩ 10 =
      (⟨some 1, some 10, some 5⟩ : AgentTimes) ∧
    (acceptConnectionUpdate ⟨some 1, some 2, some 5⟩ 10).disconnectedAt ≠ none := by
  decide

/-- Claim C3, amended: on tunnel accept the listener sets
`first_connected_at` to now iff it was previously absent (never
overwriting an existing value), always sets `last_connected_at` to now,
and persists `disconnected_at` unchanged (it is not cleared); on tunnel
teardown it sets `disconnected_at` to now, leaving the other two
timestamps as they were. -/
theorem acceptConnectionUpdate_spec (a : AgentTimes) (now : Nat) :
    (a.firstConnectedAt = none →
      (acceptConnectionUpdate a now).firstConnectedAt = some now) ∧
    (∀ t, a.firstConnectedAt = some t →
      (acceptConnectionUpdate a now).firstConnectedAt = some t) ∧
    (acceptConnectionUpdate a now).lastConnectedAt = some now ∧
    (acceptConnectionUpdate a now).disconnectedAt = a.disconnectedAt ∧
    (teardownUpdate a now).disconnectedAt = some now ∧
    (teardownUpdate a now).firstConnectedAt = a.firstConnectedAt ∧
    (teardownUpdate a now).lastConnectedAt = a.lastConnectedAt := by
  rcases a with ⟨_ | ft, l, d⟩ <;> simp [acceptConnectionUpdate, teardownUpdate]

/-- Claim C3, witness for the amended theorem at a concrete agent row. -/
theorem acceptConnectionUpdate_spec_witness :
    ((⟨none, some 2, some 5⟩ : AgentTimes).firstConnectedAt = none →
      (acceptConnectionUpdate ⟨none, some 2, some 5⟩ 10).firstConnectedAt = some 10) ∧
    (∀ t, (⟨none, some 2, some 5⟩ : AgentTimes).firstConnectedAt = some t →
      (acceptConnectionUpdate ⟨none, some 2, some 5⟩ 10).firstConnectedAt = some t) ∧
    (acceptConnectionUpdate ⟨none, some 2, some 5⟩ 10).lastConnectedAt = some 10 ∧
    (acceptConnectionUpdate ⟨none, some 2, some 5⟩ 10).disconnectedAt =
      (⟨none, some 2, some 5⟩ : AgentTimes).disconnectedAt ∧
    (teardownUpdate ⟨none, some 2, some 5⟩ 10).disconnectedAt = some 10 ∧
    (teardownUpdate ⟨none, some 2, some 5⟩ 10).firstConnectedAt =
      (⟨none, some 2, some 5⟩ : AgentTimes).firstConnectedAt ∧
    (teardownUpdate ⟨none, some 2, some 5⟩ 10).lastConnectedAt =
      (⟨none, some 2, some 5⟩ : AgentTimes).lastConnectedAt :=
  acceptConnectionUpdate_spec ⟨none, some 2, some 5⟩ 10

/-! ## Theorems for claims C2 and C4 -/

/-- Claim C2: build fencing. Along any run of the listener loop in
which every earlier tick saw a live session, a successful timestamp
update and a latest build equal to the originating build, the first
tick whose latest-build fetch returns a different build closes the
tunnel immediately (within that one tick) with the going-away status,
not an error close, regardless of what would come later. -/
theorem runTicks_fencing (buildID : Nat) (pre : List TickEnv) (e : TickEnv)
    (rest : List TickEnv)
    (hpre : ∀ p ∈ pre, p.sessionClosed = false ∧ p.updateOk = true ∧
      p.latestBuild = Except.ok buildID)
    (hs : e.sessionClosed = false) (hu : e.updateOk = true)
    (lb : Nat) (hlb : e.latestBuild = Except.ok lb) (hne : lb ≠ buildID) :
    runTicks buildID (pre ++ e :: rest) = ListenOutcome.goingAway := by
  induction pre with
  | nil =>
    have hne2 : buildID ≠ lb := fun h => hne h.symm
    simp [runTicks, hs, hu, hlb, ensureLatestBuild, hne2]
  | cons p pre ih =>
    obtain ⟨h1, h2, h3⟩ := hpre p (List.mem_cons_self p pre)
    have ih2 := ih fun q hq => hpre q (List.mem_cons_of_mem p hq)
    simp [runTicks, h1, h2, h3, ensureLatestBuild, ih2]

/-- Claim C2, witness: originating build 1; one clean tick (latest
build still 1), then a tick whose latest build is 2: the loop ends
with the going-away close on that tick. -/
theorem runTicks_fencing_witness :
    (∀ p ∈ [(⟨false, true, Except.ok 1⟩ : TickEnv)], p.sessionClosed = false ∧
      p.updateOk = true ∧ p.latestBuild = Except.ok 1) ∧
    runTicks 1 ([⟨false, true, Except.ok 1⟩] ++ (⟨false, true, Except.ok 2⟩ : TickEnv) :: []) =
      ListenOutcome.goingAway :=
  ⟨by simp,
    runTicks_fencing 1 [⟨false, true, Except.ok 1⟩] ⟨false, true, Except.ok 2⟩ []
      (by simp) rfl rfl 2 rfl (by decide)⟩

/-- Claim C4, counterexample: opening a stream of protocol `ssh` and
then closing it leaves `NumConns` at 1, not at its value 0 from before
the open — closing a stream never decrements the per-protocol
active-connection counter. -/
theorem numConns_not_restored_after_close :
    numConnsOf (closeConn (goConn emptyStats "ssh")) "ssh" ≠
      numConnsOf emptyStats "ssh" := by
  decide

/-- Claim C4, amended: opening a stream of protocol `p` increments the
`NumConns` counter of `p` by one and touches no other protocol; closing
a stream leaves all statistics unchanged (there is no decrement — after
an open and a close the counter stands one above its previous value,
and only `Reset` returns it to zero); each read/write adds the number
of bytes transferred to the per-protocol byte counters without touching
the connection count. -/
theorem stats_accounting (s : Stats) (p q : String) (ps : ProtocolStats) (n : Int) :
    numConnsOf (goConn s p) p = numConnsOf s p + 1 ∧
    (q ≠ p → goConn s p q = s q) ∧
    closeConn s = s ∧
    numConnsOf (closeConn (goConn s p)) p = numConnsOf s p + 1 ∧
    numConnsOf (resetStats s) p = 0 ∧
    (connStatsRead ps n).rxBytes = ps.rxBytes + n ∧
    (connStatsRead ps n).numConns = ps.numConns ∧
    (connStatsRead ps n).txBytes = ps.txBytes ∧
    (connStatsWrite ps n).txBytes = ps.txBytes + n ∧
    (connStatsWrite ps n).numConns = ps.numConns ∧
    (connStatsWrite ps n).rxBytes = ps.rxBytes := by
  refine ⟨?_, ?_, rfl, ?_, ?_, rfl, rfl, rfl, rfl, rfl, rfl⟩
  · simp [numConnsOf, goConn]
  · intro hq
    simp [goConn, hq]
  · simp [numConnsOf, closeConn, goConn]
  · rcases h : s p with _ | e <;> simp [numConnsOf, resetStats, h]

/-- Claim C4, witness for the amended theorem at concrete values. -/
theorem stats_accounting_witness :
    numConnsOf (goConn emptyStats "ssh") "ssh" = numConnsOf emptyStats "ssh" + 1 ∧
    ("dial" ≠ "ssh" → goConn emptyStats "ssh" "dial" = emptyStats "dial") ∧
    closeConn emptyStats = emptyStats ∧
    numConnsOf (closeConn (goConn emptyStats "ssh")) "ssh" =
      numConnsOf emptyStats "ssh" + 1 ∧
    numConnsOf (resetStats emptyStats) "ssh" = 0 ∧
    (connStatsRead ⟨1, 2, 3⟩ 7).rxBytes = (ProtocolStats.mk 1 2 3).rxBytes + 7 ∧
    (connStatsRead ⟨1, 2, 3⟩ 7).numConns = (ProtocolStats.mk 1 2 3).numConns ∧
    (connStatsRead ⟨1, 2, 3⟩ 7).txBytes = (ProtocolStats.mk 1 2 3).txBytes ∧
    (connStatsWrite ⟨1, 2, 3⟩ 7).txBytes = (ProtocolStats.mk 1 2 3).txBytes + 7 ∧
    (connStatsWrite ⟨1, 2, 3⟩ 7).numConns = (ProtocolStats.mk 1 2 3).numConns ∧
    (connStatsWrite ⟨1, 2, 3⟩ 7).rxBytes = (ProtocolStats.mk 1 2 3).rxBytes :=
  stats_accounting emptyStats "ssh" "dial" ⟨1, 2, 3⟩ 7

/-! ## Helper lemmas about the gap-fill loop -/

theorem fillGap_pos (last : GetDAUsFromAgentStatsRow) (diff : Int) (h : day < diff) :
    fillGap last diff =
      (⟨last.date + day, 0⟩ : GetDAUsFromAgentStatsRow) ::
        fillGap ⟨last.date + day, 0⟩ (diff - day) := by
  rw [fillGap]
  simp [h]

theorem fillGap_nil (last : GetDAUsFromAgentStatsRow) (diff : Int) (h : ¬ day < diff) :
    fillGap last diff = [] := by
  rw [fillGap]
  simp [h]

theorem day_pos : (0 : Int) < day := by norm_num [day]

theorem chainGap_aux : ∀ (n : Nat) (diff : Int) (last row : GetDAUsFromAgentStatsRow),
    diff.toNat ≤ n → diff = row.date - last.date →
    List.Chain dayGapLE last (fillGap last diff ++ [row]) := by
  intro n
  induction n with
  | zero =>
    intro diff last row hle hdiff
    have h : ¬ day < diff := by have := day_pos; omega
    rw [fillGap_nil _ _ h]
    refine List.Chain.cons ?_ List.Chain.nil
    simp only [dayGapLE]
    omega
  | succ n ih =>
    intro diff last row hle hdiff
    by_cases h : day < diff
    · rw [fillGap_pos _ _ h]
      refine List.Chain.cons ?_ ?_
      · simp only [dayGapLE]
        omega
      · refine ih (diff - day) ⟨last.date + day, 0⟩ row ?_ ?_
        · have := day_pos; omega
        · simp only
          omega
    · rw [fillGap_nil _ _ h]
      refine List.Chain.cons ?_ List.Chain.nil
      simp only [dayGapLE]
      omega

theorem chain_fillGap (last row : GetDAUsFromAgentStatsRow) :
    List.Chain dayGapLE last (fillGap last (row.date - last.date) ++ [row]) :=
  chainGap_aux (row.date - last.date).toNat _ last row le_rfl rfl

theorem chain_fillPairs (prev : GetDAUsFromAgentStatsRow)
    (l : List GetDAUsFromAgentStatsRow) :
    List.Chain dayGapLE prev (fillPairs prev l) := by
  induction l generalizing prev with
  | nil => exact List.Chain.nil
  | cons row rest ih =>
    simp only [fillPairs]
    rw [List.chain_split]
    exact ⟨chain_fillGap prev row, ih row⟩

theorem fillPairs_of_chain (prev : GetDAUsFromAgentStatsRow)
    (l : List GetDAUsFromAgentStatsRow)
    (h : List.Chain dayGapLE prev l) : fillPairs prev l = l := by
  induction l generalizing prev with
  | nil => rfl
  | cons row rest ih =>
    rcases h with _ | ⟨hpr, hrest⟩
    have hng : ¬ day < row.date - prev.date := by
      simp only [dayGapLE] at hpr
      omega
    simp only [fillPairs, fillGap_nil _ _ hng, List.nil_append]
    rw [ih row hrest]

/-! ## Theorems for claims C5 and C6 -/

/-- Claim C5: the gap-fill example. On the three-row input for
January 1, 4 and 7 of 2022 with counts 3, 1, 3 the function yields
exactly the seven rows for January 1 through 7 with zero counts
synthesized for January 2, 3, 5 and 6. -/
theorem fillEmptyDAUDays_example :
    fillEmptyDAUDays [⟨jan2022 1, 3⟩, ⟨jan2022 4, 1⟩, ⟨jan2022 7, 3⟩] =
      [⟨jan2022 1, 3⟩, ⟨jan2022 2, 0⟩, ⟨jan2022 3, 0⟩, ⟨jan2022 4, 1⟩,
        ⟨jan2022 5, 0⟩, ⟨jan2022 6, 0⟩, ⟨jan2022 7, 3⟩] := by
  norm_num [jan2022, day]
  simp only [fillEmptyDAUDays, fillPairs]
  norm_num [fillGap_pos, fillGap_nil, day]

/-- Claim C6: gap-fill is idempotent. On every row list whose adjacent
dates are at most one day apart the function is the identity (no new
entries are added), and since every output of the function has
adjacent gaps of at most one day, running it twice always equals
running it once. -/
theorem fillEmptyDAUDays_idempotent (l : List GetDAUsFromAgentStatsRow) :
    (List.Chain' dayGapLE l → fillEmptyDAUDays l = l) ∧
    fillEmptyDAUDays (fillEmptyDAUDays l) = fillEmptyDAUDays l := by
  constructor
  · intro h
    cases l with
    | nil => rfl
    | cons row rest =>
      have hc : List.Chain dayGapLE row rest := h
      simp only [fillEmptyDAUDays]
      rw [fillPairs_of_chain row rest hc]
  · cases l with
    | nil => rfl
    | cons row rest =>
      simp only [fillEmptyDAUDays]
      rw [fillPairs_of_chain row _ (chain_fillPairs row rest)]

theorem chain_pair_example :
    List.Chain' dayGapLE [(⟨0, 3⟩ : GetDAUsFromAgentStatsRow), ⟨day, 1⟩] := by
  simp [List.chain'_cons, List.chain'_singleton, dayGapLE]

/-- Claim C6, witness: a concrete two-row list one day apart is already
gap-filled and the function returns it unchanged. -/
theorem fillEmptyDAUDays_idempotent_witness :
    List.Chain' dayGapLE [(⟨0, 3⟩ : GetDAUsFromAgentStatsRow), ⟨day, 1⟩] ∧
    fillEmptyDAUDays [(⟨0, 3⟩ : GetDAUsFromAgentStatsRow), ⟨day, 1⟩] =
      [(⟨0, 3⟩ : GetDAUsFromAgentStatsRow), ⟨day, 1⟩] :=
  ⟨chain_pair_example, (fillEmptyDAUDays_idempotent _).1 chain_pair_example⟩

/-! ## Theorems for claims C7 and C10 -/

theorem refresh_error_keeps_state (env : RefreshEnv) (st : Option (List DAUEntry))
    (hf : refreshFails env) :
    (∃ msg, (refresh env st).1 = Except.error msg) ∧ (refresh env st).2 = st := by
  rcases hd : env.deleteResult with e | u
  · exact ⟨⟨"delete old stats: " ++ e, by simp [refresh, hd]⟩, by simp [refresh, hd]⟩
  · rcases hq : env.dausResult with e | daus
    · exact ⟨⟨e, by simp [refresh, hd, hq]⟩, by simp [refresh, hd, hq]⟩
    · exfalso
      rcases hf with ⟨e2, he⟩ | ⟨e2, he⟩
      · rw [hd] at he
        simp at he
      · rw [hq] at he
        simp at he

/-- Claim C7: refresh atomicity and resilience. A refresh cycle in
which any row-store call fails (the old-stat deletion or the DAU query)
returns an error and leaves the published snapshot slot exactly as it
was; and the retry loop of `Cache.Start` keeps running through any
number of failing cycles and publishes exactly the snapshot of the
first successful cycle. -/
theorem refresh_failure_atomic_and_retried :
    (∀ env st, refreshFails env →
      (∃ msg, (refresh env st).1 = Except.error msg) ∧ (refresh env st).2 = st) ∧
    (∀ (st : Option (List DAUEntry)) fails good rest daus,
      (∀ f ∈ fails, refreshFails f) →
      good.deleteResult = Except.ok () → good.dausResult = Except.ok daus →
      retryRefresh (fails ++ good :: rest) st =
        (true, some (convertDAURows (fillEmptyDAUDays daus)))) := by
  refine ⟨refresh_error_keeps_state, ?_⟩
  intro st fails good rest daus hf hdel hdaus
  induction fails generalizing st with
  | nil =>
    simp [retryRefresh, refresh, hdel, hdaus]
  | cons f fs ih =>
    obtain ⟨⟨msg, hmsg⟩, hst⟩ :=
      refresh_error_keeps_state f st (hf f (List.mem_cons_self f fs))
    rcases hqr : refresh f st with ⟨r1, r2⟩
    rw [hqr] at hmsg hst
    simp only at hmsg hst
    subst hmsg
    subst hst
    simp only [List.cons_append, retryRefresh, hqr]
    exact ih _ fun q hq => hf q (List.mem_cons_of_mem f hq)

/-- Claim C7, witness: one cycle whose deletion fails, followed by a
successful cycle over an empty row set, publishes exactly the snapshot
of the successful cycle. -/
theorem refresh_failure_atomic_and_retried_witness :
    (refreshFails ⟨Except.error "boom", Except.ok []⟩ →
      (∃ msg, (refresh ⟨Except.error "boom", Except.ok []⟩ none).1 = Except.error msg) ∧
      (refresh ⟨Except.error "boom", Except.ok []⟩ none).2 = none) ∧
    ((∀ f ∈ [(⟨Except.error "boom", Except.ok []⟩ : RefreshEnv)], refreshFails f) →
      (⟨Except.ok (), Except.ok []⟩ : RefreshEnv).deleteResult = Except.ok () →
      (⟨Except.ok (), Except.ok []⟩ : RefreshEnv).dausResult = Except.ok [] →
      retryRefresh ([(⟨Except.error "boom", Except.ok []⟩ : RefreshEnv)] ++
          (⟨Except.ok (), Except.ok []⟩ : RefreshEnv) :: []) none =
        (true, some (convertDAURows (fillEmptyDAUDays [])))) ∧
    retryRefresh ([(⟨Except.error "boom", Except.ok []⟩ : RefreshEnv)] ++
        (⟨Except.ok (), Except.ok []⟩ : RefreshEnv) :: []) none =
      (true, some (convertDAURows (fillEmptyDAUDays []))) :=
  ⟨refresh_failure_atomic_and_retried.1 ⟨Except.error "boom", Except.ok []⟩ none,
    refresh_failure_atomic_and_retried.2 none _ _ [] [],
    refresh_failure_atomic_and_retried.2 none _ _ [] []
      (by
        intro f hfm
        rw [List.mem_singleton] at hfm
        subst hfm
        exact Or.inl ⟨"boom", rfl⟩)
      rfl rfl⟩

/-- Claim C10: `GetDAUs` before any successful refresh (the snapshot
pointer still nil) returns the empty response rather than failing, and
once a refresh cycle has succeeded it returns exactly the snapshot
that cycle published. -/
theorem getDAUs_snapshot :
    getDAUs none = ([] : List DAUEntry) ∧
    (∀ entries : List DAUEntry, getDAUs (some entries) = entries) ∧
    (∀ env st daus, env.deleteResult = Except.ok () → env.dausResult = Except.ok daus →
      getDAUs (refresh env st).2 = convertDAURows (fillEmptyDAUDays daus)) := by
  refine ⟨rfl, fun _ => rfl, ?_⟩
  intro env st daus h1 h2
  simp [refresh, h1, h2, getDAUs]

/-- Claim C10, witness at a concrete successful refresh over one row. -/
theorem getDAUs_snapshot_witness :
    (⟨Except.ok (), Except.ok [⟨0, 2⟩]⟩ : RefreshEnv).deleteResult = Except.ok () ∧
    (⟨Except.ok (), Except.ok [⟨0, 2⟩]⟩ : RefreshEnv).dausResult = Except.ok [⟨0, 2⟩] ∧
    getDAUs (refresh ⟨Except.ok (), Except.ok [⟨0, 2⟩]⟩ none).2 =
      convertDAURows (fillEmptyDAUDays [⟨0, 2⟩]) :=
  ⟨rfl, rfl, getDAUs_snapshot.2.2 ⟨Except.ok (), Except.ok [⟨0, 2⟩]⟩ none [⟨0, 2⟩] rfl rfl⟩

/-! ## Theorem for claim C8 -/

/-- Claim C8: dial-stream failure propagation. With the data channel
created, `DialContext` decodes exactly one structured response before
any passthrough; a non-empty error field makes it close the channel
and return an error (the caller never obtains a connection), an empty
error field returns the stream, and an undecodable response returns an
error. -/
theorem dialContext_first_message (res : DialResponse) (e : String) :
    (res.error ≠ "" →
      (dialContext (Except.ok ()) (Except.ok res)).connReturned = false ∧
      (dialContext (Except.ok ()) (Except.ok res)).err.isSome = true ∧
      (dialContext (Except.ok ()) (Except.ok res)).channelClosed = true) ∧
    (res.error = "" →
      dialContext (Except.ok ()) (Except.ok res) = ⟨true, none, false⟩) ∧
    ((dialContext (Except.ok ()) (Except.error e)).connReturned = false ∧
      (dialContext (Except.ok ()) (Except.error e)).err.isSome = true ∧
      (dialContext (Except.ok ()) (Except.error e)).channelClosed = false) := by
  refine ⟨?_, ?_, ?_⟩
  · intro h
    simp [dialContext, h]
  · intro h
    simp [dialContext, h]
  · simp [dialContext]

/-- Claim C8, witness: a remote dial error "connection refused" yields
a closed channel and no connection; an empty error yields the stream. -/
theorem dialContext_first_message_witness :
    (DialResponse.mk "connection refused").error ≠ "" ∧
    (dialContext (Except.ok ()) (Except.ok ⟨"connection refused"⟩)).connReturned = false ∧
    (dialContext (Except.ok ()) (Except.ok ⟨"connection refused"⟩)).err.isSome = true ∧
    (dialContext (Except.ok ()) (Except.ok ⟨"connection refused"⟩)).channelClosed = true ∧
    (DialResponse.mk "").error = "" ∧
    dialContext (Except.ok ()) (Except.ok ⟨""⟩) = ⟨true, none, false⟩ := by
  have h1 := (dialContext_first_message ⟨"connection refused"⟩ "x").1 (by decide)
  have h2 := (dialContext_first_message ⟨""⟩ "x").2.1 rfl
  exact ⟨by decide, h1.1, h1.2.1, h1.2.2, rfl, h2⟩

/-! ## Theorem for claim C9 -/

set_option maxRecDepth 4000 in
/-- Claim C9, failing input: `WebsocketCloseSprintf` applied to a
124-byte message (123 times `a` followed by `b`) returns the
one-character string `b` — the Go code evaluates `string(msg[123])`,
the single byte at index 123, where its own comment says it trims the
message to its first 123 bytes (`msg[:123]`). The result is neither
the 123-byte prefix nor any prefix of the message at all. -/
theorem websocketCloseSprintf_not_prefix_truncation :
    websocketCloseSprintf (List.replicate 123 97 ++ [98]) = [98] ∧
    websocketCloseSprintf (List.replicate 123 97 ++ [98]) ≠
      List.take 123 (List.replicate 123 97 ++ [98]) ∧
    ¬ (websocketCloseSprintf (List.replicate 123 97 ++ [98])).isPrefixOf
        (List.replicate 123 97 ++ [98]) = true := by
  refine ⟨?_, ?_, ?_⟩ <;> decide

end Coder
